import Mathlib

/-!
NewDepths — shallow embedding and verification

A shallow embedding of the NewDepths application (a notification service for
newly published bathymetric survey data) and proofs checking its
natural-language specification against the code.

Conventions of the embedding:
* Python floats carrying geographic coordinates and timestamps are modelled
  as rationals (`ℚ`); every comparison the code performs on them is an exact
  order comparison, so no rounding behaviour is load-bearing.
* The relational database is modelled as an explicit state record (`Db`)
  holding the rows of each table; SQLAlchemy queries become list operations,
  a `commit` is the returned state.
* Python exceptions that a piece of code can raise and that are observable by
  its callers are modelled with `Except`; code paths on which an exception
  escapes uncaught are represented by the corresponding `.error` value.
* Network calls (the NOAA catalog, the order tracking URL) are modelled by
  oracle arguments: the response (or the fact that an exception was raised)
  is passed in as data.
-/

namespace NewDepths

/-! ## Data model (backend/db/models.py)

Rows of the five persisted tables.  `UserRow.google_sub` and
`OrderRow.output_location` are modelled from the spec: the final revision of
`models.py` (the one consistent with `routers/google_auth.py`, which reads and
writes `user.google_sub`, and with `routers/noaa.py`, which writes
`order.output_location`) is not present under `src/`; the spec records both as
nullable columns, absent unless set. -/

structure UserRow where
  id : Nat
  email : String
  username : Option String := none
  full_name : Option String := none
  active : Bool := true
  hashed_password : Option String := none
  google_sub : Option String := none
  deriving Repr, DecidableEq

structure BBoxRow where
  id : Nat
  top_left_lat : ℚ
  top_left_lon : ℚ
  bottom_right_lat : ℚ
  bottom_right_lon : ℚ
  owner_id : Nat
  deriving Repr, DecidableEq

structure DataTypeRow where
  id : Nat
  name : String
  description : Option String := none
  base_url : String
  deriving Repr, DecidableEq

structure CacheRow where
  id : Nat
  most_recent_data : Option ℚ := none
  bbox_id : Nat
  data_type_id : Nat
  deriving Repr, DecidableEq

structure OrderRow where
  id : Nat
  noaa_ref_id : String
  order_date : ℚ
  check_status_url : Option String := none
  bbox_id : Nat
  data_type : String
  user_id : Nat
  last_status : Option String := none
  output_location : Option String := none
  deriving Repr, DecidableEq

/-- The database state: the rows of each table plus the surrogate-id
counters the storage layer uses to mint primary keys. -/
structure Db where
  users : List UserRow := []
  bboxes : List BBoxRow := []
  data_types : List DataTypeRow := []
  caches : List CacheRow := []
  orders : List OrderRow := []
  next_user_id : Nat := 1
  next_bbox_id : Nat := 1
  next_cache_id : Nat := 1
  next_order_id : Nat := 1
  deriving Repr, DecidableEq

/-! ## CRUD (backend/db/crud.py) -/

/-- `crud.get_user_by_email`: first user row whose email matches. -/
def get_user_by_email (db : Db) (email : String) : Option UserRow :=
  (db.users.filter (fun u => u.email == email)).head?

/-- `crud.get_user_by_id`. -/
def get_user_by_id (db : Db) (user_id : Nat) : Option UserRow :=
  (db.users.filter (fun u => u.id == user_id)).head?

/-- `crud.create_user_bbox`: insert a bounding-box row owned by `user_id`. -/
def create_user_bbox (db : Db) (tll tlo brl bro : ℚ) (user_id : Nat) :
    Db × BBoxRow :=
  let row : BBoxRow :=
    { id := db.next_bbox_id, top_left_lat := tll, top_left_lon := tlo,
      bottom_right_lat := brl, bottom_right_lon := bro, owner_id := user_id }
  ({ db with bboxes := db.bboxes ++ [row],
             next_bbox_id := db.next_bbox_id + 1 }, row)

/-- `crud.get_user_bboxes` and the `User.bboxes` relationship: all boxes
whose `owner_id` matches. -/
def get_user_bboxes (db : Db) (user_id : Nat) : List BBoxRow :=
  db.bboxes.filter (fun b => b.owner_id == user_id)

/-! ## Bounding-box validity (backend/routers/bbox.py, `is_valid_bbox`) -/

/-- `bbox.py` line 19. -/
def MAX_BOXES_PER_USER : Nat := 5

/-- `is_valid_bbox` from `backend/routers/bbox.py`, line for line:
physical limits on both latitudes and both longitudes, at most 10 degrees of
extent in each direction, and the top-left corner north and west of the
bottom-right corner. -/
def is_valid_bbox (top_left_lat top_left_lon bottom_right_lat
    bottom_right_lon : ℚ) : Bool :=
  -- check physical limits
  if [top_left_lat, bottom_right_lat].any (fun x => x < -90 || x > 90) then
    false
  else if [top_left_lon, bottom_right_lon].any
      (fun x => x < -180 || x > 180) then
    false
  -- max 10 degrees in either direction, same as noaa point store
  else if |top_left_lat - bottom_right_lat| > 10 then
    false
  else if |top_left_lon - bottom_right_lon| > 10 then
    false
  -- top left should be north and west of bottom right
  else
    top_left_lat > bottom_right_lat && top_left_lon < bottom_right_lon

/-- C3: `is_valid_bbox` returns true exactly when both latitudes lie in
[-90, 90], both longitudes lie in [-180, 180], the latitude and longitude
spans are each at most 10 degrees, the top-left latitude exceeds the
bottom-right latitude and the top-left longitude is less than the
bottom-right longitude; and the four concrete boxes from the spec evaluate
as stated: box(50, -10, 40, 0) is valid while box(40, -10, 50, 0),
box(50, -10, 40, 15) and box(95, 0, 40, 10) are invalid. -/
theorem c3_is_valid_bbox_iff :
    (∀ tll tlo brl bro : ℚ,
      is_valid_bbox tll tlo brl bro = true ↔
        (-90 ≤ tll ∧ tll ≤ 90 ∧ -90 ≤ brl ∧ brl ≤ 90 ∧
         -180 ≤ tlo ∧ tlo ≤ 180 ∧ -180 ≤ bro ∧ bro ≤ 180 ∧
         tll - brl ≤ 10 ∧ bro - tlo ≤ 10 ∧
         brl < tll ∧ tlo < bro)) ∧
    is_valid_bbox 50 (-10) 40 0 = true ∧
    is_valid_bbox 40 (-10) 50 0 = false ∧
    is_valid_bbox 50 (-10) 40 15 = false ∧
    is_valid_bbox 95 0 40 10 = false := by
  refine ⟨?_, ?_, ?_, ?_, ?_⟩
  · intro tll tlo brl bro
    simp only [is_valid_bbox, List.any_cons, List.any_nil, Bool.or_false,
      Bool.or_eq_true, decide_eq_true_eq]
    split_ifs with h1 h2 h3 h4
    · simp only [Bool.false_eq_true, false_iff]
      rintro ⟨ha, hb, hc, hd, -⟩
      rcases h1 with (h | h) | (h | h) <;> linarith
    · simp only [Bool.false_eq_true, false_iff]
      rintro ⟨-, -, -, -, he, hf, hg, hh, -⟩
      rcases h2 with (h | h) | (h | h) <;> linarith
    · simp only [Bool.false_eq_true, false_iff]
      rintro ⟨-, -, -, -, -, -, -, -, hi, hj, hk, -⟩
      rw [abs_of_pos (by linarith)] at h3
      linarith
    · simp only [Bool.false_eq_true, false_iff]
      rintro ⟨-, -, -, -, -, -, -, -, hi, hj, hk, hl⟩
      rw [abs_of_neg (by linarith)] at h4
      linarith
    · push_neg at h1 h2
      rw [not_lt, abs_le] at h3 h4
      simp only [Bool.and_eq_true, decide_eq_true_eq]
      constructor
      · rintro ⟨hk, hl⟩
        exact ⟨h1.1.1, h1.1.2, h1.2.1, h1.2.2, h2.1.1, h2.1.2, h2.2.1,
          h2.2.2, by linarith [h3.2], by linarith [h4.1], hk, hl⟩
      · rintro ⟨-, -, -, -, -, -, -, -, -, -, hk, hl⟩
        exact ⟨hk, hl⟩
  all_goals
    simp only [is_valid_bbox, List.any_cons, List.any_nil, Bool.or_false]
    norm_num

/-! ## Bounding-box form POST (backend/routers/bbox.py) -/

/-- Python exceptions observable in the embedded code paths. -/
inductive PyError where
  | attributeError
  | typeError
  | keyError
  | multipleResultsFound
  deriving Repr, DecidableEq

/-- The POST `/bbox_form` handler body (`backend/routers/bbox.py`, lines
56-100), for an already-authenticated user identified by email.  The
returned string is the `showAlert` trigger message the handler attaches to
the response header; the rendered template fragment is presentation only
and is not modelled.  When `get_user_by_email` returns no row the code
would dereference `None.bboxes`, an `AttributeError`. -/
def bbox_form_post (db : Db) (user_email : String) (tll tlo brl bro : ℚ) :
    Except PyError (Db × String) :=
  if is_valid_bbox tll tlo brl bro = false then
    .ok (db, "Bounding box is invalid, or too large.")
  else
    match get_user_by_email db user_email with
    | none => .error .attributeError
    | some db_user =>
      if (get_user_bboxes db db_user.id).length > MAX_BOXES_PER_USER then
        .ok (db, "Max " ++ toString MAX_BOXES_PER_USER ++
          " boxes/user. Delete one to add more.")
      else
        .ok ((create_user_bbox db tll tlo brl bro db_user.id).1,
          "Created new bounding box!")

/-- C4: for a geometrically valid box submitted by an authenticated user,
the box is persisted (with the success trigger) exactly when the number of
boxes the user already owns is at most 5 — i.e. not strictly greater than
`MAX_BOXES_PER_USER` — so a 6th box is still accepted; with 6 or more
existing boxes the handler returns the quota-exceeded trigger and leaves
the database unchanged. -/
theorem c4_bbox_quota (db : Db) (email : String) (u : UserRow)
    (tll tlo brl bro : ℚ)
    (hvalid : is_valid_bbox tll tlo brl bro = true)
    (huser : get_user_by_email db email = some u) :
    (bbox_form_post db email tll tlo brl bro =
        .ok ((create_user_bbox db tll tlo brl bro u.id).1,
          "Created new bounding box!") ↔
      (get_user_bboxes db u.id).length ≤ MAX_BOXES_PER_USER) ∧
    ((get_user_bboxes db u.id).length > MAX_BOXES_PER_USER →
      bbox_form_post db email tll tlo brl bro =
        .ok (db, "Max 5 boxes/user. Delete one to add more.")) := by
  have hstep : bbox_form_post db email tll tlo brl bro =
      if (get_user_bboxes db u.id).length > MAX_BOXES_PER_USER then
        .ok (db, "Max " ++ toString MAX_BOXES_PER_USER ++
          " boxes/user. Delete one to add more.")
      else
        .ok ((create_user_bbox db tll tlo brl bro u.id).1,
          "Created new bounding box!") := by
    rw [bbox_form_post, if_neg (by rw [hvalid]; simp), huser]
  have hmsg : "Max " ++ toString MAX_BOXES_PER_USER ++
      " boxes/user. Delete one to add more." =
      "Max 5 boxes/user. Delete one to add more." := by
    rfl
  constructor
  · constructor
    · intro h
      by_contra hq
      rw [not_le] at hq
      rw [hstep, if_pos hq] at h
      simp only [Except.ok.injEq, Prod.mk.injEq] at h
      exact absurd h.2 (by decide)
    · intro hq
      rw [hstep, if_neg (not_lt.mpr hq)]
  · intro hq
    rw [hstep, if_pos hq, hmsg]

/-- A user row used by concrete witnesses. -/
def sampleUser : UserRow := { id := 1, email := "alice@example.com" }

/-- A box row owned by `sampleUser`, with a parametric id. -/
def sampleBox (i : Nat) : BBoxRow :=
  { id := i, top_left_lat := 50, top_left_lon := -10,
    bottom_right_lat := 40, bottom_right_lon := 0, owner_id := 1 }

/-- A database in which `sampleUser` already owns exactly 5 boxes. -/
def dbFiveBoxes : Db :=
  { users := [sampleUser],
    bboxes := [sampleBox 1, sampleBox 2, sampleBox 3, sampleBox 4,
               sampleBox 5],
    next_bbox_id := 6 }

/-- A database in which `sampleUser` already owns exactly 6 boxes. -/
def dbSixBoxes : Db :=
  { users := [sampleUser],
    bboxes := [sampleBox 1, sampleBox 2, sampleBox 3, sampleBox 4,
               sampleBox 5, sampleBox 6],
    next_bbox_id := 7 }

/-- Witness for C4: with exactly 5 existing boxes a 6th valid box is
persisted with the success trigger; with 6 existing boxes the submission is
rejected with the quota trigger and the database is unchanged. -/
theorem c4_bbox_quota_witness :
    bbox_form_post dbFiveBoxes "alice@example.com" 50 (-10) 40 0 =
      .ok ((create_user_bbox dbFiveBoxes 50 (-10) 40 0 1).1,
        "Created new bounding box!") ∧
    bbox_form_post dbSixBoxes "alice@example.com" 50 (-10) 40 0 =
      .ok (dbSixBoxes, "Max 5 boxes/user. Delete one to add more.") := by
  have hvalid : is_valid_bbox 50 (-10) 40 0 = true := by
    simp only [is_valid_bbox, List.any_cons, List.any_nil, Bool.or_false]
    norm_num
  constructor
  · exact (c4_bbox_quota dbFiveBoxes "alice@example.com" sampleUser
      50 (-10) 40 0 hvalid rfl).1.mpr (by
        simp [dbFiveBoxes, get_user_bboxes, sampleUser, sampleBox,
          MAX_BOXES_PER_USER])
  · exact (c4_bbox_quota dbSixBoxes "alice@example.com" sampleUser
      50 (-10) 40 0 hvalid rfl).2 (by
        simp [dbSixBoxes, get_user_bboxes, sampleUser, sampleBox,
          MAX_BOXES_PER_USER])

/-! ## Cascade delete (backend/db/crud.py, `delete_user_bbox`) -/

/-- `crud.delete_user_bbox`: look up the box scoped to both the id and the
claimed owner; when found, delete all cache rows and all data-order rows
referencing the box and then the box itself (by primary key), commit, and
report `true`; otherwise report `false` with the state untouched. -/
def delete_user_bbox (db : Db) (bbox_id user_id : Nat) : Bool × Db :=
  match (db.bboxes.filter
      (fun b => b.id == bbox_id && b.owner_id == user_id)).head? with
  | some db_bbox =>
    (true,
      { db with
        caches := db.caches.filter (fun c => c.bbox_id != bbox_id),
        orders := db.orders.filter (fun o => o.bbox_id != bbox_id),
        bboxes := db.bboxes.filter (fun b => b.id != db_bbox.id) })
  | none => (false, db)

/-- C5: `delete_user_bbox` returns `true` — and the committed state drops
every cache row referencing the box, every data order referencing the box
and the box itself, in one step — exactly when a box with the given id
exists and is owned by the claimed user; in every other case it returns
`false` and the state is unchanged. -/
theorem c5_delete_user_bbox (db : Db) (bbox_id user_id : Nat) :
    ((delete_user_bbox db bbox_id user_id).1 = true ↔
      ∃ b ∈ db.bboxes, b.id = bbox_id ∧ b.owner_id = user_id) ∧
    ((∃ b ∈ db.bboxes, b.id = bbox_id ∧ b.owner_id = user_id) →
      (delete_user_bbox db bbox_id user_id).2 =
        { db with
          caches := db.caches.filter (fun c => c.bbox_id != bbox_id),
          orders := db.orders.filter (fun o => o.bbox_id != bbox_id),
          bboxes := db.bboxes.filter (fun b => b.id != bbox_id) }) ∧
    (¬ (∃ b ∈ db.bboxes, b.id = bbox_id ∧ b.owner_id = user_id) →
      (delete_user_bbox db bbox_id user_id).2 = db) := by
  have hmem : ∀ x, ((db.bboxes.filter
      (fun b => b.id == bbox_id && b.owner_id == user_id)).head? = some x) →
      x ∈ db.bboxes ∧ x.id = bbox_id ∧ x.owner_id = user_id := by
    intro x hx
    cases hfl : db.bboxes.filter
        (fun b => b.id == bbox_id && b.owner_id == user_id) with
    | nil => rw [hfl] at hx; exact absurd hx (by simp)
    | cons a t =>
      rw [hfl] at hx
      simp only [List.head?_cons, Option.some.injEq] at hx
      cases hx
      have : x ∈ db.bboxes.filter
          (fun b => b.id == bbox_id && b.owner_id == user_id) := by
        rw [hfl]; exact List.mem_cons_self _ _
      rw [List.mem_filter] at this
      refine ⟨this.1, ?_, ?_⟩
      · have := this.2
        simp only [Bool.and_eq_true, beq_iff_eq] at this
        exact this.1
      · have := this.2
        simp only [Bool.and_eq_true, beq_iff_eq] at this
        exact this.2
  have hexists : (∃ b ∈ db.bboxes, b.id = bbox_id ∧ b.owner_id = user_id) ↔
      (db.bboxes.filter
        (fun b => b.id == bbox_id && b.owner_id == user_id)) ≠ [] := by
    rw [ne_eq, List.filter_eq_nil_iff]
    push_neg
    constructor
    · rintro ⟨b, hb, h1, h2⟩
      exact ⟨b, hb, by simp [h1, h2]⟩
    · rintro ⟨b, hb, h⟩
      simp only [Bool.and_eq_true, beq_iff_eq] at h
      exact ⟨b, hb, h.1, h.2⟩
  cases hfl : (db.bboxes.filter
      (fun b => b.id == bbox_id && b.owner_id == user_id)).head? with
  | some x =>
    obtain ⟨hxmem, hxid, hxowner⟩ := hmem x hfl
    refine ⟨?_, ?_, ?_⟩
    · simp only [delete_user_bbox, hfl]
      simp only [true_iff]
      exact ⟨x, hxmem, hxid, hxowner⟩
    · intro _
      simp only [delete_user_bbox, hfl, hxid]
    · intro hno
      exact absurd ⟨x, hxmem, hxid, hxowner⟩ hno
  | none =>
    have hnil : db.bboxes.filter
        (fun b => b.id == bbox_id && b.owner_id == user_id) = [] := by
      rwa [List.head?_eq_none_iff] at hfl
    refine ⟨?_, ?_, ?_⟩
    · simp only [delete_user_bbox, hfl]
      simp only [Bool.false_eq_true, false_iff]
      rw [hexists]
      simp [hnil]
    · intro hex
      exact absurd hex (by rw [hexists]; simp [hnil])
    · intro _
      simp only [delete_user_bbox, hfl]

/-- The database of the spec's cascade-delete example: box 7 owned by
`sampleUser` with two data orders and one cache entry, next to an unrelated
box 8 owned by user 2 with one order and one cache entry. -/
def dbCascade : Db :=
  { users := [sampleUser, { id := 2, email := "bob@example.com" }],
    bboxes := [sampleBox 7,
               { id := 8, top_left_lat := 10, top_left_lon := 10,
                 bottom_right_lat := 5, bottom_right_lon := 15,
                 owner_id := 2 }],
    data_types := [{ id := 1, name := "multibeam", base_url := "mb" }],
    caches := [{ id := 1, bbox_id := 7, data_type_id := 1 },
               { id := 2, bbox_id := 8, data_type_id := 1 }],
    orders := [{ id := 1, noaa_ref_id := "r1", order_date := 0,
                 bbox_id := 7, data_type := "csb", user_id := 1 },
               { id := 2, noaa_ref_id := "r2", order_date := 0,
                 bbox_id := 7, data_type := "multibeam", user_id := 1 },
               { id := 3, noaa_ref_id := "r3", order_date := 0,
                 bbox_id := 8, data_type := "csb", user_id := 2 }] }

/-- Witness for C5: deleting box 7 (2 orders, 1 cache entry) as its owner
removes the three dependent rows and the box and reports success; deleting
it as a different user reports failure and leaves the state untouched. -/
theorem c5_delete_user_bbox_witness :
    (delete_user_bbox dbCascade 7 1).1 = true ∧
    (delete_user_bbox dbCascade 7 1).2 =
      { dbCascade with
        caches := dbCascade.caches.filter (fun c => c.bbox_id != 7),
        orders := dbCascade.orders.filter (fun o => o.bbox_id != 7),
        bboxes := dbCascade.bboxes.filter (fun b => b.id != 7) } ∧
    (delete_user_bbox dbCascade 7 2).1 = false ∧
    (delete_user_bbox dbCascade 7 2).2 = dbCascade := by
  have h1 := c5_delete_user_bbox dbCascade 7 1
  have h2 := c5_delete_user_bbox dbCascade 7 2
  have hb : sampleBox 7 ∈ dbCascade.bboxes := by
    simp [dbCascade]
  refine ⟨?_, ?_, ?_, ?_⟩
  · exact h1.1.mpr ⟨sampleBox 7, hb, rfl, rfl⟩
  · exact h1.2.1 ⟨sampleBox 7, hb, rfl, rfl⟩
  · have hne : ¬ ∃ b ∈ dbCascade.bboxes, b.id = 7 ∧ b.owner_id = 2 := by
      rintro ⟨b, hbmem, hbid, hbowner⟩
      simp only [dbCascade, List.mem_cons, List.not_mem_nil, or_false] at hbmem
      rcases hbmem with rfl | rfl
      · exact absurd hbowner (by simp [sampleBox])
      · exact absurd hbid (by simp)
    cases hd : (delete_user_bbox dbCascade 7 2).1 with
    | false => rfl
    | true => exact absurd (h2.1.mp hd) hne
  · refine h2.2.2 ?_
    rintro ⟨b, hbmem, hbid, hbowner⟩
    simp only [dbCascade, List.mem_cons, List.not_mem_nil, or_false] at hbmem
    rcases hbmem with rfl | rfl
    · exact absurd hbowner (by simp [sampleBox])
    · exact absurd hbid (by simp)

/-! ## Freshness cache upsert (backend/db/crud.py,
`get_last_cached_date` / `set_last_cached_date`) -/

/-- SQLAlchemy `.one_or_none()`: no row → `none`, one row → that row, more
than one → `MultipleResultsFound`. -/
def one_or_none {α : Type} (l : List α) : Except PyError (Option α) :=
  match l with
  | [] => .ok none
  | [x] => .ok (some x)
  | _ => .error .multipleResultsFound

/-- The query both cache operations issue: the rows for one
(bbox_id, data_type_id) pair. -/
def pairRows (db : Db) (bid did : Nat) : List CacheRow :=
  db.caches.filter (fun c => c.bbox_id == bid && c.data_type_id == did)

/-- `crud.get_last_cached_date`: the stored timestamp for the pair, `none`
when no row exists (`res[0] if res else None` also collapses a row whose
stored value is NULL to `None`). -/
def get_last_cached_date (db : Db) (bbox : BBoxRow) (data_type : DataTypeRow) :
    Except PyError (Option ℚ) :=
  match one_or_none (pairRows db bbox.id data_type.id) with
  | .error e => .error e
  | .ok (some c) => .ok c.most_recent_data
  | .ok none => .ok none

/-- The row mutation performed by the update branch of
`set_last_cached_date` (attribute assignment + commit = update of the row
with that primary key). -/
def updateCacheRow (cid : Nat) (t : ℚ) (r : CacheRow) : CacheRow :=
  if r.id == cid then { r with most_recent_data := some t } else r

/-- `crud.set_last_cached_date`: query-then-update-or-insert upsert for the
(bbox, data type) pair. -/
def set_last_cached_date (db : Db) (bbox : BBoxRow) (data_type : DataTypeRow)
    (most_recent_data : ℚ) : Except PyError Db :=
  match one_or_none (pairRows db bbox.id data_type.id) with
  | .error e => .error e
  | .ok (some db_cache) =>
    .ok { db with
      caches := db.caches.map (updateCacheRow db_cache.id most_recent_data) }
  | .ok none =>
    .ok { db with
      caches := db.caches ++
        [{ id := db.next_cache_id,
           most_recent_data := some most_recent_data,
           bbox_id := bbox.id, data_type_id := data_type.id }],
      next_cache_id := db.next_cache_id + 1 }

/-- The invariant: at most one `CacheRow` per (bbox_id, data_type_id)
pair. -/
def cacheInv (db : Db) : Prop :=
  ∀ bid did : Nat, (pairRows db bid did).length ≤ 1

theorem pairRows_map_update (db : Db) (cid : Nat) (t : ℚ) (bid did : Nat) :
    pairRows { db with caches := db.caches.map (updateCacheRow cid t) }
        bid did =
      (pairRows db bid did).map (updateCacheRow cid t) := by
  show (db.caches.map (updateCacheRow cid t)).filter _ = _
  rw [List.filter_map]
  congr 1
  apply List.filter_congr
  intro r _
  by_cases h : r.id == cid <;> simp [updateCacheRow, h]

theorem set_last_cached_date_ok (db : Db) (bbox : BBoxRow)
    (dt : DataTypeRow) (t : ℚ) (hinv : cacheInv db) :
    ∃ db', set_last_cached_date db bbox dt t = .ok db' ∧ cacheInv db' ∧
      (∃ c', pairRows db' bbox.id dt.id = [c'] ∧
        c'.most_recent_data = some t) ∧
      (pairRows db bbox.id dt.id = [] →
        db'.caches = db.caches ++
          [⟨db.next_cache_id, some t, bbox.id, dt.id⟩]) ∧
      (∀ c, pairRows db bbox.id dt.id = [c] →
        db'.caches = db.caches.map (updateCacheRow c.id t)) := by
  have hlen := hinv bbox.id dt.id
  cases hp : pairRows db bbox.id dt.id with
  | nil =>
    refine ⟨_, by rw [set_last_cached_date, hp]; rfl, ?_, ?_, ?_, ?_⟩
    · intro bid did
      show ((db.caches ++ _).filter _).length ≤ 1
      rw [List.filter_append]
      by_cases hb : bbox.id = bid ∧ dt.id = did
      · have hzero : pairRows db bid did = [] := by
          rw [← hb.1, ← hb.2]; exact hp
        rw [show (db.caches.filter _) = pairRows db bid did from rfl, hzero]
        exact le_trans (List.length_filter_le _ _) (by simp)
      · have hfalse : ((bbox.id == bid) && (dt.id == did)) = false := by
          rcases not_and_or.mp hb with h | h <;> simp [h]
        simp only [List.filter_cons, List.filter_nil, hfalse,
          Bool.false_eq_true, if_false, List.append_nil]
        exact hinv bid did
    · refine ⟨⟨db.next_cache_id, some t, bbox.id, dt.id⟩, ?_, rfl⟩
      show (db.caches ++ _).filter _ = _
      rw [List.filter_append,
        show (db.caches.filter _) = pairRows db bbox.id dt.id from rfl, hp]
      simp
    · intro _; rfl
    · intro c hc; exact List.noConfusion hc
  | cons c rest =>
    cases rest with
    | cons c2 t2 => rw [hp] at hlen; exact absurd hlen (by simp)
    | nil =>
      refine ⟨_, by rw [set_last_cached_date, hp]; rfl, ?_, ?_, ?_, ?_⟩
      · intro bid did
        rw [pairRows_map_update, List.length_map]
        exact hinv bid did
      · refine ⟨updateCacheRow c.id t c, ?_, ?_⟩
        · rw [pairRows_map_update, hp]; rfl
        · simp [updateCacheRow]
      · intro h; exact List.noConfusion h
      · intro c0 hc0
        simp only [List.cons.injEq, and_true] at hc0
        cases hc0
        rfl

/-- C6: from any state satisfying the one-row-per-pair invariant,
`set_last_cached_date` keeps the invariant, updating the existing row when
one exists for the pair and appending exactly one new row otherwise; and
after setting the pair's date to `t` and then to `t2`, exactly one cache
row exists for the pair and it stores `t2`. -/
theorem c6_cache_upsert (db : Db) (bbox : BBoxRow) (dt : DataTypeRow)
    (t t2 : ℚ) (hinv : cacheInv db) :
    ∃ db', set_last_cached_date db bbox dt t = .ok db' ∧ cacheInv db' ∧
      (pairRows db bbox.id dt.id = [] →
        db'.caches = db.caches ++
          [⟨db.next_cache_id, some t, bbox.id, dt.id⟩]) ∧
      (∀ c, pairRows db bbox.id dt.id = [c] →
        db'.caches = db.caches.map (updateCacheRow c.id t)) ∧
      ∃ db'', set_last_cached_date db' bbox dt t2 = .ok db'' ∧
        cacheInv db'' ∧
        ∃ c', pairRows db'' bbox.id dt.id = [c'] ∧
          c'.most_recent_data = some t2 := by
  obtain ⟨db', hset, hinv', -, hins, hupd⟩ :=
    set_last_cached_date_ok db bbox dt t hinv
  obtain ⟨db'', hset2, hinv'', hone, -, -⟩ :=
    set_last_cached_date_ok db' bbox dt t2 hinv'
  exact ⟨db', hset, hinv', hins, hupd, db'', hset2, hinv'', hone⟩

/-- A data-type catalog row used by concrete witnesses. -/
def sampleDataType : DataTypeRow :=
  { id := 1, name := "multibeam", base_url := "mb" }

/-- Witness for C6, at a database whose cache table is empty: setting the
cached date for (box 1, multibeam) to 1 and then 2 leaves exactly one row
for the pair, storing 2. -/
theorem c6_cache_upsert_witness :
    ∃ db', set_last_cached_date dbFiveBoxes (sampleBox 1) sampleDataType 1 =
        .ok db' ∧ cacheInv db' ∧
      (pairRows dbFiveBoxes (sampleBox 1).id sampleDataType.id = [] →
        db'.caches = dbFiveBoxes.caches ++
          [⟨dbFiveBoxes.next_cache_id, some 1, (sampleBox 1).id,
            sampleDataType.id⟩]) ∧
      (∀ c, pairRows dbFiveBoxes (sampleBox 1).id sampleDataType.id = [c] →
        db'.caches = dbFiveBoxes.caches.map (updateCacheRow c.id 1)) ∧
      ∃ db'', set_last_cached_date db' (sampleBox 1) sampleDataType 2 =
          .ok db'' ∧ cacheInv db'' ∧
        ∃ c', pairRows db'' (sampleBox 1).id sampleDataType.id = [c'] ∧
          c'.most_recent_data = some 2 :=
  c6_cache_upsert dbFiveBoxes (sampleBox 1) sampleDataType 1 2
    (by intro bid did; simp [cacheInv, pairRows, dbFiveBoxes])

/-! ## Notification batch worker (backend/worker.py, `check_for_new_data`) -/

/-- One feature of the upstream catalog response: `time` is the value under
the source's time key (`ENTERED_DATE` for multibeam, `ARRIVAL_DATE` for
CSB), in epoch milliseconds; the remaining attributes (platform, download
url, …) are carried opaquely — the worker's filtering logic never inspects
them. -/
structure Survey where
  time : ℚ
  attrs : List (String × String) := []
  deriving Repr, DecidableEq

/-- A decoded JSON body returned by `get_data_for_bbox`: either it carries
an `error` key or a (possibly empty) `features` list. -/
structure FetchJson where
  hasError : Bool := false
  features : List Survey := []
  deriving Repr, DecidableEq

/-- One entry of `notifications_by_user`: the bucket key (`bbox.owner_id`),
the bbox row, the data type and the kept surveys.  (The query `url` stored
alongside is presentational and never filtered, so it is not modelled.) -/
structure NotifEntry where
  owner_id : Nat
  bbox : BBoxRow
  data_type : DataTypeRow
  new_surveys : List Survey
  deriving Repr, DecidableEq

/-- The body of one iteration of the worker's nested loop
(`backend/worker.py` lines 149-195): read the cached date for the pair,
inspect the fetched body (`none` models a failed request, skipped), skip
an `error` body or an empty feature list, take the latest time from the
head of the (newest-first) feature list, keep only surveys strictly newer
than the cached date when one existed (no filtering on a first-ever
check), upsert the cache with the latest time, and produce a notification
entry exactly when surveys remain. -/
def processPair (db : Db) (bbox : BBoxRow) (data_type : DataTypeRow)
    (new_data : Option FetchJson) :
    Except PyError (Db × Option NotifEntry) :=
  match get_last_cached_date db bbox data_type with
  | .error e => .error e
  | .ok date =>
    match new_data with
    | none => .ok (db, none)
    | some nd =>
      if nd.hasError then .ok (db, none)
      else
        match nd.features with
        | [] => .ok (db, none)
        | s0 :: rest =>
          let latest_datetime := s0.time / 1000
          let surveys :=
            match date with
            | some d => (s0 :: rest).filter (fun s => s.time / 1000 > d)
            | none => s0 :: rest
          match set_last_cached_date db bbox data_type latest_datetime with
          | .error e => .error e
          | .ok db2 =>
            .ok (db2,
              if surveys.isEmpty then none
              else some ⟨bbox.owner_id, bbox, data_type, surveys⟩)

/-- The worker's loop over an explicit pair list, threading the database
state and accumulating notification entries in append order (the
`defaultdict(list)` keyed by owner id is recovered by grouping the entries
by their `owner_id`). -/
def processPairs (db : Db) (pairs : List (BBoxRow × DataTypeRow))
    (fetch : BBoxRow → DataTypeRow → Option FetchJson) :
    Except PyError (Db × List NotifEntry) :=
  match pairs with
  | [] => .ok (db, [])
  | (b, dt) :: rest =>
    match processPair db b dt (fetch b dt) with
    | .error e => .error e
    | .ok (db', notif) =>
      match processPairs db' rest fetch with
      | .error e => .error e
      | .ok (db'', notifs) =>
        .ok (db'', notif.toList ++ notifs)

/-- `check_for_new_data`: iterate `processPair` over bboxes × data types
(the code nests `for bbox` outside `for data_type`); the network is an
oracle mapping each pair to the decoded response body. -/
def check_for_new_data (db : Db) (bboxes : List BBoxRow)
    (data_types : List DataTypeRow)
    (fetch : BBoxRow → DataTypeRow → Option FetchJson) :
    Except PyError (Db × List NotifEntry) :=
  processPairs db
    (bboxes.flatMap (fun b => data_types.map (fun dt => (b, dt)))) fetch

/-- C7: for a pair whose fetch returns a non-empty feature list (and no
error key): when a cached timestamp `d` existed, the notification entry
produced by the worker's loop body carries exactly the surveys strictly
newer than `d` (and no entry at all when none are newer); when no cached
timestamp existed, the entry carries the full fetched list unfiltered. -/
theorem c7_worker_filtering (db : Db) (bbox : BBoxRow) (dt : DataTypeRow)
    (features : List Survey) (date : Option ℚ)
    (hne : features ≠ [])
    (hdate : get_last_cached_date db bbox dt = .ok date) :
    ∃ db2,
      (∀ d, date = some d →
        processPair db bbox dt (some ⟨false, features⟩) =
          .ok (db2,
            if (features.filter (fun s => s.time / 1000 > d)).isEmpty
            then none
            else some ⟨bbox.owner_id, bbox, dt,
              features.filter (fun s => s.time / 1000 > d)⟩)) ∧
      (date = none →
        processPair db bbox dt (some ⟨false, features⟩) =
          .ok (db2, some ⟨bbox.owner_id, bbox, dt, features⟩)) := by
  cases features with
  | nil => exact absurd rfl hne
  | cons s0 rest =>
    have hset : ∃ db2,
        set_last_cached_date db bbox dt (s0.time / 1000) = .ok db2 := by
      rw [get_last_cached_date] at hdate
      rw [set_last_cached_date]
      cases hq : one_or_none (pairRows db bbox.id dt.id) with
      | error e => rw [hq] at hdate; exact absurd hdate (by simp)
      | ok o => cases o <;> exact ⟨_, rfl⟩
    obtain ⟨db2, hdb2⟩ := hset
    refine ⟨db2, ?_, ?_⟩
    · intro d hd
      subst hd
      simp only [processPair, hdate, hdb2, Bool.false_eq_true, if_false]
    · intro hd
      subst hd
      simp only [processPair, hdate, hdb2, Bool.false_eq_true, if_false,
        List.isEmpty_cons]

/-- A survey with a given epoch-millisecond time and no further
attributes. -/
def svAt (t : ℚ) : Survey := { time := t }

/-- A database holding one cache row for (box 1, data type 1) with cached
time 2 (epoch seconds, i.e. the survey at 2000 ms). -/
def dbCachedAt2 : Db :=
  { users := [sampleUser], bboxes := [sampleBox 1],
    data_types := [sampleDataType],
    caches := [{ id := 1, most_recent_data := some 2, bbox_id := 1,
                 data_type_id := 1 }],
    next_cache_id := 2 }

/-- Witness for C7: fetched surveys at millisecond times
[4000, 3000, 2000, 1000] (i.e. [T, T-1, T-2, T-3] seconds) with a cached
time of 2 seconds (= T-2) keep exactly the surveys at T and T-1; with no
cached time (first-ever check) the full list is kept unfiltered. -/
theorem c7_worker_filtering_witness :
    (∃ db2, processPair dbCachedAt2 (sampleBox 1) sampleDataType
        (some ⟨false, [svAt 4000, svAt 3000, svAt 2000, svAt 1000]⟩) =
      .ok (db2, some ⟨1, sampleBox 1, sampleDataType,
        [svAt 4000, svAt 3000]⟩)) ∧
    (∃ db2, processPair dbFiveBoxes (sampleBox 1) sampleDataType
        (some ⟨false, [svAt 4000, svAt 3000, svAt 2000, svAt 1000]⟩) =
      .ok (db2, some ⟨1, sampleBox 1, sampleDataType,
        [svAt 4000, svAt 3000, svAt 2000, svAt 1000]⟩)) := by
  constructor
  · obtain ⟨db2, hsome, -⟩ := c7_worker_filtering dbCachedAt2 (sampleBox 1)
      sampleDataType [svAt 4000, svAt 3000, svAt 2000, svAt 1000]
      (some 2) (by simp) rfl
    have hsome := hsome 2 rfl
    have hf : [svAt 4000, svAt 3000, svAt 2000, svAt 1000].filter
        (fun s => s.time / 1000 > 2) = [svAt 4000, svAt 3000] := by
      simp only [svAt, List.filter_cons, List.filter_nil]
      norm_num
    rw [hf] at hsome
    simp only [List.isEmpty_cons, Bool.false_eq_true, if_false] at hsome
    exact ⟨db2, hsome⟩
  · obtain ⟨db2, -, hnone⟩ := c7_worker_filtering dbFiveBoxes (sampleBox 1)
      sampleDataType [svAt 4000, svAt 3000, svAt 2000, svAt 1000]
      none (by simp) rfl
    exact ⟨db2, hnone rfl⟩

/-! ## Access tokens and the identity dependency
(backend/auth/base.py, backend/dependencies/user.py) -/

/-- The failure modes of `jose.jwt.decode` relevant here: wrong signing
key, and an `exp` claim in the past. -/
inductive JoseError where
  | signatureMismatch
  | expired
  deriving Repr, DecidableEq

/-- A JWT as the `jose` client library presents it to this code: a claims
payload, the key the token was signed with, and the `exp` claim.  The
`jose` library itself is an external crypto client (spec §4.4): a token
decodes to its claims under the signing key, fails with a signature error
under any other key, and fails with an expiry error once `exp` has
passed. -/
structure JwtToken where
  payload : List (String × String)
  signedWith : String
  exp : Option ℤ := none
  deriving Repr, DecidableEq

/-- Python `dict.get`: the value stored under a key, if any. -/
def dictGet (l : List (String × String)) (k : String) : Option String :=
  ((l.filter (fun p => p.1 == k)).head?).map (fun p => p.2)

/-- `jose.jwt.decode(token, key, algorithms=[ALGORITHM])` evaluated at
time `now`: raises on signature mismatch or expiry, otherwise returns the
payload. -/
def jwt_decode (token : JwtToken) (key : String) (now : ℤ) :
    Except JoseError (List (String × String)) :=
  if token.signedWith ≠ key then .error .signatureMismatch
  else
    match token.exp with
    | some e => if e ≤ now then .error .expired else .ok token.payload
    | none => .ok token.payload

/-- `dependencies.user.get_user_or_none`: decode (letting any `JWTError`
escape — there is no try block here), read the `sub` claim, and resolve it
to a user row; `None` when the claim is missing or no user matches. -/
def get_user_or_none (token : JwtToken) (db : Db) (key : String)
    (now : ℤ) : Except JoseError (Option UserRow) :=
  match jwt_decode token key now with
  | .error e => .error e
  | .ok payload =>
    match dictGet payload "sub" with
    | none => .ok none
    | some email =>
      match get_user_by_email db email with
      | none => .ok none
      | some user => .ok (some user)

/-- What a request guarded by `get_user_or_redirect` observes. -/
inductive AuthOutcome where
  | redirect307 (location : String)
  | currentUser (u : UserRow)
  | uncaughtError (e : JoseError)
  deriving Repr, DecidableEq

/-- `dependencies.user.get_user_or_redirect`: no `token` cookie raises the
307 `HTTPException` with the `Location` header; otherwise the handler calls
`get_user_or_none` inside `try: ... except HTTPException:` — which catches
only the handler's own 307 `HTTPException` (re-raising an identical one).
A `JWTError` raised by `jwt.decode` is not an `HTTPException`, so it
escapes the handler uncaught. -/
def get_user_or_redirect (cookie_token : Option JwtToken) (db : Db)
    (key : String) (now : ℤ) (url : String) : AuthOutcome :=
  match cookie_token with
  | none => .redirect307 url
  | some token =>
    match get_user_or_none token db key now with
    | .error e => .uncaughtError e
    | .ok none => .redirect307 url
    | .ok (some user) => .currentUser user

/-- C1 (evaluation at the failing inputs): of the five token-validation
failure modes, only a missing token, a payload without the `sub` claim and
a subject not resolving to a user yield the 307 redirect to `/login`; a
token with a signature mismatch and an expired token make `jwt.decode`
raise a `JWTError` that the `except HTTPException` clause does not catch,
so those two modes propagate an error instead of redirecting — the five
modes are not treated identically. -/
theorem c1_jwt_errors_uncaught :
    get_user_or_redirect none dbFiveBoxes "server-secret" 1000 "/login" =
      .redirect307 "/login" ∧
    get_user_or_redirect
        (some ⟨[("sub", "alice@example.com")], "other-key", none⟩)
        dbFiveBoxes "server-secret" 1000 "/login" =
      .uncaughtError .signatureMismatch ∧
    get_user_or_redirect
        (some ⟨[("sub", "alice@example.com")], "server-secret", some 500⟩)
        dbFiveBoxes "server-secret" 1000 "/login" =
      .uncaughtError .expired ∧
    get_user_or_redirect (some ⟨[], "server-secret", none⟩)
        dbFiveBoxes "server-secret" 1000 "/login" =
      .redirect307 "/login" ∧
    get_user_or_redirect
        (some ⟨[("sub", "nobody@example.com")], "server-secret", none⟩)
        dbFiveBoxes "server-secret" 1000 "/login" =
      .redirect307 "/login" ∧
    (∀ loc, (AuthOutcome.uncaughtError .signatureMismatch) ≠
      .redirect307 loc) := by
  refine ⟨by decide, by decide, by decide, by decide, by decide, ?_⟩
  intro loc h
  exact AuthOutcome.noConfusion h

/-! ## Local password authentication (backend/auth/base.py) -/

/-- `pwd_context.verify` (passlib): verifying a password against an absent
stored hash raises a `TypeError`; against a present hash it returns the
bcrypt comparison result, supplied by the `bcrypt_check` oracle (bcrypt is
an external crypto primitive). -/
def verify_password (bcrypt_check : String → String → Bool)
    (plain_password : String) (hashed_password : Option String) :
    Except PyError Bool :=
  match hashed_password with
  | none => .error .typeError
  | some h => .ok (bcrypt_check plain_password h)

/-- The result of `authenticate_user`: the uniform falsy failure
(`return False`) or the matched user. -/
inductive LoginResult where
  | failure
  | success (u : UserRow)
  deriving Repr, DecidableEq

/-- `auth.base.authenticate_user`: unknown email → failure; otherwise
verify the password against the stored hash — with no guard on whether a
hash is stored at all. -/
def authenticate_user (bcrypt_check : String → String → Bool) (db : Db)
    (email password : String) : Except PyError LoginResult :=
  match get_user_by_email db email with
  | none => .ok .failure
  | some user =>
    match verify_password bcrypt_check password user.hashed_password with
    | .error e => .error e
    | .ok false => .ok .failure
    | .ok true => .ok (.success user)

/-- C10: for a stored user without a `hashed_password` (the shape produced
by federated-only account creation), `authenticate_user` on that user's
email and any password raises the `TypeError` from `verify_password`
rather than returning the uniform falsy failure that unknown-email and
wrong-password cases return. -/
theorem c10_authenticate_federated_user_raises
    (bcrypt_check : String → String → Bool) (db : Db)
    (email password : String) (u : UserRow)
    (hfind : get_user_by_email db email = some u)
    (hnopw : u.hashed_password = none) :
    authenticate_user bcrypt_check db email password =
      .error .typeError ∧
    authenticate_user bcrypt_check db email password ≠ .ok .failure := by
  have h : authenticate_user bcrypt_check db email password =
      .error .typeError := by
    simp only [authenticate_user, hfind, hnopw, verify_password]
  exact ⟨h, by rw [h]; exact fun hc => Except.noConfusion hc⟩

/-- A database holding one federated-only account: no stored password
hash. -/
def dbFederatedUser : Db :=
  { users := [{ id := 1, email := "fed@example.com",
                google_sub := some "sub-123" }], next_user_id := 2 }

/-- Witness for C10: authenticating against the federated-only account
raises `TypeError` for an arbitrary submitted password. -/
theorem c10_authenticate_federated_user_raises_witness :
    authenticate_user (fun _ _ => false) dbFederatedUser
      "fed@example.com" "any-password" = .error .typeError ∧
    authenticate_user (fun _ _ => false) dbFederatedUser
      "fed@example.com" "any-password" ≠ .ok .failure :=
  c10_authenticate_federated_user_raises (fun _ _ => false) dbFederatedUser
    "fed@example.com" "any-password"
    { id := 1, email := "fed@example.com", google_sub := some "sub-123" }
    (by decide) rfl

/-! ## User creation paths (backend/schemas/schemas.py,
backend/db/crud.py, backend/routers/user.py,
backend/routers/google_auth.py) -/

/-- The `UserCreate` input schema. -/
structure UserCreate where
  email : String
  full_name : Option String := none
  google_sub : Option String := none
  hashed_password : Option String := none
  deriving Repr, DecidableEq

/-- Python truthiness of an optional string: `None` and `""` are falsy. -/
def optStrFalsy (o : Option String) : Bool :=
  match o with
  | none => true
  | some s => s == ""

/-- `UserCreate.validate_user` (`backend/schemas/schemas.py` lines 18-21):
raises unless at least one of `hashed_password` / `google_sub` is truthy.
No code under `src/` ever invokes it. -/
def validate_user (u : UserCreate) : Except String Unit :=
  if optStrFalsy u.hashed_password && optStrFalsy u.google_sub then
    .error "User must have either a hashed password or a google sub"
  else .ok ()

/-- `crud.create_user` (`backend/db/crud.py` lines 24-32): persists email,
full_name and hashed_password only — the `google_sub` carried by the
`UserCreate` input is not passed to the model, so the stored column keeps
its NULL default. -/
def create_user (db : Db) (user : UserCreate) : Db × UserRow :=
  let db_user : UserRow :=
    { id := db.next_user_id, email := user.email,
      full_name := user.full_name,
      hashed_password := user.hashed_password, google_sub := none }
  ({ db with users := db.users ++ [db_user],
             next_user_id := db.next_user_id + 1 }, db_user)

/-- `crud.get_user_by_google_sub`.  Modelled from the spec: the function
is called by `routers/google_auth.py` but its definition is not under
`src/`; per spec §4.5 step 5 it finds a user by the stored federated
subject id. -/
def get_user_by_google_sub (db : Db) (sub : String) : Option UserRow :=
  (db.users.filter (fun u => u.google_sub == some sub)).head?

/-- The user-resolution step of `google_auth_callback`
(`backend/routers/google_auth.py` lines 134-146), after the verified id
token yielded `email` and `sub`: find by email, linking `google_sub` when
it is unset; else find by sub; else create a brand-new user with
`UserCreate(email=email, google_sub=sub)`.  `validate_user` is not called
on this path (nor anywhere else). -/
def google_callback_resolve_user (db : Db) (email sub : String) :
    Db × UserRow :=
  match get_user_by_email db email with
  | some user =>
    if optStrFalsy user.google_sub then
      let user2 := { user with google_sub := some sub }
      let link := fun r => if r.id == user.id then user2 else r
      ({ db with users := db.users.map link }, user2)
    else (db, user)
  | none =>
    match get_user_by_google_sub db sub with
    | some user => (db, user)
    | none => create_user db { email := email, google_sub := some sub }

/-- The user-creation step of POST `/register` (`backend/routers/user.py`
lines 165-169): a `UserCreate` carrying the bcrypt hash of the submitted
password and no `google_sub`. -/
def register_create_user (db : Db) (email hashed : String) :
    Db × UserRow :=
  create_user db { email := email, hashed_password := some hashed }

/-- C2 (evaluation at the failing input): first federated login of a brand
new identity builds `UserCreate(email, google_sub=sub)` — which would even
satisfy `validate_user` — but the row `crud.create_user` persists carries
neither `hashed_password` nor `google_sub`, so the claimed invariant fails
on the federated creation path; local registration does store the hash. -/
theorem c2_federated_user_without_credentials :
    (google_callback_resolve_user ({} : Db) "new@example.com" "sub-1").2 =
      { id := 1, email := "new@example.com" } ∧
    ({ id := 1, email := "new@example.com" } : UserRow).hashed_password
      = none ∧
    ({ id := 1, email := "new@example.com" } : UserRow).google_sub = none ∧
    (google_callback_resolve_user ({} : Db) "new@example.com" "sub-1").1.users
      = [{ id := 1, email := "new@example.com" }] ∧
    validate_user { email := "new@example.com", google_sub := some "sub-1" }
      = .ok () ∧
    (register_create_user ({} : Db) "local@example.com"
        "bcrypt-hash").2.hashed_password = some "bcrypt-hash" := by
  refine ⟨by decide, rfl, rfl, by decide, ?_, by decide⟩
  rw [validate_user]
  rfl

/-! ## Order-status polling (backend/routers/noaa.py, `order_status`) -/

/-- `crud.get_data_order_by_id`. -/
def get_data_order_by_id (db : Db) (order_id : Nat) : Option OrderRow :=
  (db.orders.filter (fun o => o.id == order_id)).head?

/-- `noaa.py` line 16. -/
def NOAA_PICKUP_URL : String := "https://order-pickup.s3.amazonaws.com"

/-- `bucket_to_url`: trailing path segment of the bucket location appended
to the fixed pickup base. -/
def bucket_to_url (bucket_location : String) (base : String) : String :=
  let uuid := ((bucket_location.splitOn "/").getLast?).getD ""
  base ++ "/" ++ uuid

/-- ASCII lower-casing of one character. -/
def charLower (c : Char) : Char :=
  if 'A' ≤ c ∧ c ≤ 'Z' then Char.ofNat (c.toNat + 32) else c

/-- Python `str.lower()` (the statuses handled are ASCII). -/
def strLower (s : String) : String := ⟨s.data.map charLower⟩

/-- Contiguous-substring search on character lists. -/
def hasSubstr (l : List Char) (sub : List Char) : Bool :=
  match l with
  | [] => sub.isEmpty
  | c :: rest => sub.isPrefixOf (c :: rest) || hasSubstr rest sub

/-- Python `sub in s`. -/
def strContains (s sub : String) : Bool := hasSubstr s.data sub.data

/-- The commit after the handler's in-place mutation of the order row:
replace the row carrying that primary key. -/
def commitOrder (db : Db) (order2 : OrderRow) (oid : Nat) : Db :=
  let replace := fun r => if r.id == oid then order2 else r
  { db with orders := db.orders.map replace }

/-- `prettier_status`: the fixed mapping from upstream status strings to
the human-readable form; unrecognized statuses map to
"Order status unknown". -/
def prettier_status (status : String) (url : Option String) : String :=
  if status == "complete" then
    let link :=
      match url with
      | some u =>
        if u == "" then ""
        else "<a class=\x27underline\x27 href=\x27" ++ u ++
          "\x27>Download</a>"
      | none => ""
    "Complete! " ++ link
  else if status == "created" then "Created"
  else if status == "initialized" then "Initialized"
  else if status == "processing" then "Processing"
  else "Order status unknown"

/-- The observable outcome of `requests.get(order.check_status_url).json()`
together with the handler's field reads: an exception anywhere in the try
block (transport error, bad JSON, missing `status` key), or a body with a
`status` string and an optional `output_location`. -/
inductive PollOutcome where
  | exn
  | body (status : String) (output_location : Option String)
  deriving Repr, DecidableEq

/-- What the GET `/order_status/{order_id}` handler responds. -/
inductive OrderStatusResult where
  | redirectAccount
  | notFound404
  | forbidden403
  | page (body : String) (code : Nat) (db2 : Db)
  deriving Repr, DecidableEq

/-- The in-place mutation the handler applies to a pending order from the
poll outcome: on a body, derive the public download location (empty or
missing `output_location` → none) and the prettified status; on an
exception, only set the status to the unknown placeholder. -/
def pollUpdate (order : OrderRow) (poll : PollOutcome) : OrderRow :=
  match poll with
  | .body st loc =>
    let out :=
      match loc with
      | some l =>
        if l == "" then none
        else some (bucket_to_url l NOAA_PICKUP_URL)
      | none => none
    { order with output_location := out,
                 last_status := some (prettier_status st out) }
  | .exn =>
    { order with last_status := some (prettier_status "unknown" none) }

/-- The GET `/order_status/{order_id}` handler (`backend/routers/noaa.py`
lines 137-183) for an already-authenticated user: non-htmx requests are
redirected to `/account`; unknown order → 404; foreign order → 403;
when the cached status does not already contain "complete"
(case-insensitively) the tracking URL is polled — any exception sets the
status to the unknown placeholder instead of failing — and the updated
order is committed; the body is the (possibly updated) status text with
HTTP status 286 when it contains "complete" and 200 otherwise. -/
def order_status (db : Db) (order_id user_id : Nat) (hx_request : Bool)
    (poll : PollOutcome) : Except PyError OrderStatusResult :=
  if hx_request = false then .ok .redirectAccount
  else
    match get_data_order_by_id db order_id with
    | none => .ok .notFound404
    | some order =>
      if order.user_id != user_id then .ok .forbidden403
      else
        match order.last_status with
        | none => .error .attributeError
        | some cached =>
          if strContains (strLower cached) "complete" then
            .ok (.page cached
              (if strContains (strLower cached) "complete" then 286
               else 200) db)
          else
            let order2 := pollUpdate order poll
            let db2 := commitOrder db order2 order.id
            let final_status := (order2.last_status).getD ""
            .ok (.page final_status
              (if strContains (strLower final_status) "complete" then 286
               else 200) db2)

theorem page_code_ok (body : String) (db2 : Db) :
    ∃ b c d,
      (Except.ok (ε := PyError)
        (OrderStatusResult.page body
          (if strContains (strLower body) "complete" then 286 else 200)
          db2)) = .ok (.page b c d) ∧
      ((strContains (strLower b) "complete" = true ∧ c = 286) ∨
       (strContains (strLower b) "complete" = false ∧ c = 200)) := by
  by_cases hb : strContains (strLower body) "complete" = true
  · exact ⟨body, 286, db2, by rw [if_pos hb], Or.inl ⟨hb, rfl⟩⟩
  · rw [Bool.not_eq_true] at hb
    refine ⟨body, 200, db2, ?_, Or.inr ⟨hb, rfl⟩⟩
    rw [if_neg (by rw [hb]; simp)]

/-- C9: for the order's owner with the `hx-request` header set, the
response is always the status text with code 286 exactly when the
(possibly just-updated) status contains "complete" case-insensitively and
200 otherwise; a cached already-complete status short-circuits (no poll,
state unchanged, 286); and an exception while contacting the tracking URL
sets the status to "Order status unknown" and still answers normally with
200. -/
theorem c9_order_status (db : Db) (order_id user_id : Nat) (o : OrderRow)
    (cached : String)
    (hfind : get_data_order_by_id db order_id = some o)
    (howner : o.user_id = user_id)
    (hcached : o.last_status = some cached) :
    (∀ poll, ∃ body code db2,
      order_status db order_id user_id true poll =
        .ok (.page body code db2) ∧
      ((strContains (strLower body) "complete" = true ∧ code = 286) ∨
       (strContains (strLower body) "complete" = false ∧ code = 200))) ∧
    (∀ poll, strContains (strLower cached) "complete" = true →
      order_status db order_id user_id true poll =
        .ok (.page cached 286 db)) ∧
    (strContains (strLower cached) "complete" = false →
      order_status db order_id user_id true .exn =
        .ok (.page "Order status unknown" 200
          (commitOrder db
            { o with last_status := some "Order status unknown" }
            o.id))) := by
  have howner2 : (o.user_id != user_id) = false := by
    simp [howner]
  have hstep : ∀ poll, order_status db order_id user_id true poll =
      if strContains (strLower cached) "complete" then
        .ok (.page cached
          (if strContains (strLower cached) "complete" then 286 else 200)
          db)
      else
        .ok (.page ((pollUpdate o poll).last_status.getD "")
          (if strContains
              (strLower ((pollUpdate o poll).last_status.getD ""))
              "complete" then 286 else 200)
          (commitOrder db (pollUpdate o poll) o.id)) := by
    intro poll
    simp only [order_status, hfind, hcached, howner2, Bool.false_eq_true,
      if_false]
    rw [if_neg (fun h => Bool.noConfusion h)]
  have hps : prettier_status "unknown" none = "Order status unknown" := by
    decide
  have hcs : strContains (strLower "Order status unknown") "complete"
      = false := by decide
  refine ⟨?_, ?_, ?_⟩
  · intro poll
    rw [hstep poll]
    by_cases hc : strContains (strLower cached) "complete" = true
    · rw [if_pos hc, if_pos hc]
      exact ⟨cached, 286, db, rfl, Or.inl ⟨hc, rfl⟩⟩
    · rw [Bool.not_eq_true] at hc
      rw [if_neg (by rw [hc]; simp)]
      exact page_code_ok ((pollUpdate o poll).last_status.getD "")
        (commitOrder db (pollUpdate o poll) o.id)
  · intro poll hc
    rw [hstep poll, if_pos hc, if_pos hc]
  · intro hc
    rw [hstep .exn, if_neg (by rw [hc]; simp)]
    simp only [pollUpdate, hps, Option.getD_some, hcs, Bool.false_eq_true,
      if_false]

/-- The two orders of the C9 witness: one already known complete, one
still pending. -/
def orderComplete : OrderRow :=
  { id := 1, noaa_ref_id := "r1", order_date := 0, bbox_id := 1,
    data_type := "csb", user_id := 1,
    last_status := some "Complete! <link>" }

def orderInitialized : OrderRow :=
  { id := 2, noaa_ref_id := "r2", order_date := 0, bbox_id := 1,
    data_type := "csb", user_id := 1, last_status := some "Initialized" }

def dbOrders : Db :=
  { users := [sampleUser], bboxes := [sampleBox 1],
    orders := [orderComplete, orderInitialized], next_order_id := 3 }

/-- Witness for C9: the cached "Complete! <link>" order answers 286 with
no state change even when the poll would fail; the cached "Initialized"
order answers 200 (here the poll reports it still initialized); a failing
poll for the pending order answers 200 with the body
"Order status unknown". -/
theorem c9_order_status_witness :
    order_status dbOrders 1 1 true .exn =
      .ok (.page "Complete! <link>" 286 dbOrders) ∧
    order_status dbOrders 2 1 true (.body "initialized" none) =
      .ok (.page "Initialized" 200
        (commitOrder dbOrders
          { orderInitialized with
            output_location := none,
            last_status := some "Initialized" }
          orderInitialized.id)) ∧
    order_status dbOrders 2 1 true .exn =
      .ok (.page "Order status unknown" 200
        (commitOrder dbOrders
          { orderInitialized with
            last_status := some "Order status unknown" }
          orderInitialized.id)) := by
  refine ⟨?_, ?_, ?_⟩
  · exact (c9_order_status dbOrders 1 1 orderComplete "Complete! <link>"
      rfl rfl rfl).2.1 .exn (by decide)
  · rfl
  · exact (c9_order_status dbOrders 2 1 orderInitialized "Initialized"
      rfl rfl rfl).2.2 (by decide)

/-! ## Federated auth state tokens (backend/auth/google.py)

The serialization pipeline of `AuthStateToken.to_state_str` /
`from_state_str` is embedded at the byte level: Python `str` values are
sequences of code points, and every string this code serializes is ASCII,
so `.encode()`/`.decode()` are modelled as the code-point/byte identity
(`strBytes`/`bytesStr`).  `hashlib.sha256` and `hmac.new(...).hexdigest()`
are embedded as a full SHA-256/HMAC implementation; `base64.b64encode` /
`b64decode` as standard base64 (decode, like Python's lenient default,
first discards bytes outside the alphabet and then requires a whole number
of 4-byte groups with trailing padding); `json.dumps` produces the default
`\x7b"k": v\x7d` rendering with ", " and ": " separators, and the
`json.loads` of `from_state_str` is modelled on the object fragment this
token actually round-trips: a flat object with the keys
`token`/`expires`/`data` in serialization order and string-or-null values
(escapes for backslash and quote).  `expires` is carried as its
`isoformat()` text; `datetime.fromisoformat` is its inverse and is not
modelled further. -/

def w32 (n : Nat) : Nat := n % 4294967296

def rotr (s x : Nat) : Nat := w32 ((x >>> s) ||| (x <<< (32 - s)))

/-- The 64 SHA-256 round constants. -/
def K256 : List Nat :=
  [1116352408, 1899447441, 3049323471, 3921009573, 961987163,
   1508970993, 2453635748, 2870763221, 3624381080, 310598401,
   607225278, 1426881987, 1925078388, 2162078206, 2614888103,
   3248222580, 3835390401, 4022224774, 264347078, 604807628,
   770255983, 1249150122, 1555081692, 1996064986, 2554220882,
   2821834349, 2952996808, 3210313671, 3336571891, 3584528711,
   113926993, 338241895, 666307205, 773529912, 1294757372,
   1396182291, 1695183700, 1986661051, 2177026350, 2456956037,
   2730485921, 2820302411, 3259730800, 3345764771, 3516065817,
   3600352804, 4094571909, 275423344, 430227734, 506948616,
   659060556, 883997877, 958139571, 1322822218, 1537002063,
   1747873779, 1955562222, 2024104815, 2227730452, 2361852424,
   2428436474, 2756734187, 3204031479, 3329325298]

/-- The SHA-256 initial hash state. -/
def H256 : List Nat :=
  [1779033703, 3144134277, 1013904242, 2773480762,
   1359893119, 2600822924, 528734635, 1541459225]

/-- `k` big-endian bytes of `n`. -/
def beBytes (k : Nat) (n : Nat) : List Nat :=
  match k with
  | 0 => []
  | j + 1 => beBytes j (n / 256) ++ [n % 256]

/-- Big-endian 32-bit words from a byte stream. -/
def toWords : List Nat → List Nat
  | a :: b :: c :: d :: rest =>
    (((a * 256 + b) * 256 + c) * 256 + d) :: toWords rest
  | _ => []

/-- 512-bit blocks (16 words each) from a word stream. -/
def toBlocks : List Nat → List (List Nat)
  | w0 :: w1 :: w2 :: w3 :: w4 :: w5 :: w6 :: w7 :: w8 :: w9 :: w10 ::
      w11 :: w12 :: w13 :: w14 :: w15 :: rest =>
    [w0, w1, w2, w3, w4, w5, w6, w7, w8, w9, w10, w11, w12, w13, w14, w15]
      :: toBlocks rest
  | _ => []

/-- SHA-256 message-schedule extension; `acc` holds the words produced so
far, newest first. -/
def extendW (acc : List Nat) (count : Nat) : List Nat :=
  match count with
  | 0 => acc.reverse
  | c + 1 =>
    let w2 := acc.getD 1 0
    let w7 := acc.getD 6 0
    let w15 := acc.getD 14 0
    let w16 := acc.getD 15 0
    let s0 := rotr 7 w15 ^^^ rotr 18 w15 ^^^ (w15 >>> 3)
    let s1 := rotr 17 w2 ^^^ rotr 19 w2 ^^^ (w2 >>> 10)
    extendW (w32 (w16 + s0 + w7 + s1) :: acc) c

/-- One SHA-256 compression round on the 8-word working state. -/
def compressStep (st : List Nat) (kw : Nat × Nat) : List Nat :=
  match st with
  | [a, b, c, d, e, f, g, h] =>
    let S1 := rotr 6 e ^^^ rotr 11 e ^^^ rotr 25 e
    let ch := (e &&& f) ^^^ ((4294967295 ^^^ e) &&& g)
    let temp1 := w32 (h + S1 + ch + kw.1 + kw.2)
    let S0 := rotr 2 a ^^^ rotr 13 a ^^^ rotr 22 a
    let maj := (a &&& b) ^^^ (a &&& c) ^^^ (b &&& c)
    let temp2 := w32 (S0 + maj)
    [w32 (temp1 + temp2), a, b, c, w32 (d + temp1), e, f, g]
  | _ => st

/-- Process one block: schedule, 64 rounds, add into the hash state. -/
def sha256Block (h : List Nat) (block : List Nat) : List Nat :=
  let W := extendW block.reverse 48
  let st := (List.zip K256 W).foldl compressStep h
  List.zipWith (fun x y => w32 (x + y)) h st

/-- `hashlib.sha256(msg).digest()`: SHA-256 of a byte list. -/
def sha256 (msg : List Nat) : List Nat :=
  let len := msg.length
  let padded := msg ++ 128 :: List.replicate ((119 - len % 64) % 64) 0
    ++ beBytes 8 (len * 8)
  let final := (toBlocks (toWords padded)).foldl sha256Block H256
  final.flatMap (beBytes 4)

/-- The byte of the lowercase hex digit for a nibble. -/
def hexChar (n : Nat) : Nat :=
  if n < 10 then 48 + n else 87 + n

/-- `.hexdigest()`: lowercase hex bytes of a digest. -/
def hexBytes : List Nat → List Nat
  | [] => []
  | b :: rest => hexChar (b / 16) :: hexChar (b % 16) :: hexBytes rest

/-- `str.encode()` for the ASCII strings this pipeline carries. -/
def strBytes (s : String) : List Nat := s.data.map Char.toNat

/-- `bytes.decode()` for ASCII byte lists. -/
def bytesStr (l : List Nat) : String := ⟨l.map Char.ofNat⟩

/-- `hmac.new(key, msg, hashlib.sha256).digest()` (RFC 2104). -/
def hmacSha256 (key msg : List Nat) : List Nat :=
  let key2 := if 64 < key.length then sha256 key else key
  let key3 := key2 ++ List.replicate (64 - key2.length) 0
  let ipad := key3.map (fun b => b ^^^ 54)
  let opad := key3.map (fun b => b ^^^ 92)
  sha256 (opad ++ sha256 (ipad ++ msg))

/-- The base64 alphabet, index → byte. -/
def b64EncChar (i : Nat) : Nat :=
  if i < 26 then 65 + i
  else if i < 52 then 97 + (i - 26)
  else if i < 62 then 48 + (i - 52)
  else if i = 62 then 43
  else 47

/-- The base64 alphabet, byte → index. -/
def b64DecVal (c : Nat) : Option Nat :=
  if 65 ≤ c ∧ c ≤ 90 then some (c - 65)
  else if 97 ≤ c ∧ c ≤ 122 then some (c - 97 + 26)
  else if 48 ≤ c ∧ c ≤ 57 then some (c - 48 + 52)
  else if c = 43 then some 62
  else if c = 47 then some 63
  else none

/-- Bytes `b64decode` keeps before decoding: alphabet and padding. -/
def isB64Char (c : Nat) : Bool := (b64DecVal c).isSome || c == 61

/-- `base64.b64encode` on bytes. -/
def b64encodeBytes : List Nat → List Nat
  | [] => []
  | [a] => [b64EncChar (a / 4), b64EncChar ((a % 4) * 16), 61, 61]
  | [a, b] => [b64EncChar (a / 4), b64EncChar ((a % 4) * 16 + b / 16),
               b64EncChar ((b % 16) * 4), 61]
  | a :: b :: c :: rest =>
    b64EncChar (a / 4) :: b64EncChar ((a % 4) * 16 + b / 16) ::
    b64EncChar ((b % 16) * 4 + c / 64) :: b64EncChar (c % 64) ::
    b64encodeBytes rest

/-- Decode whole 4-byte base64 groups with trailing padding. -/
def b64decodeGroups : List Nat → Option (List Nat)
  | [] => some []
  | a :: b :: c :: d :: rest =>
    match b64DecVal a, b64DecVal b with
    | some x, some y =>
      if c = 61 then
        if d = 61 ∧ rest = [] then some [x * 4 + y / 16] else none
      else
        match b64DecVal c with
        | some z =>
          if d = 61 then
            if rest = [] then
              some [x * 4 + y / 16, (y % 16) * 16 + z / 4]
            else none
          else
            match b64DecVal d, b64decodeGroups rest with
            | some w, some tail =>
              some ((x * 4 + y / 16) :: ((y % 16) * 16 + z / 4) ::
                ((z % 4) * 64 + w) :: tail)
            | _, _ => none
        | none => none
    | _, _ => none
  | _ => none

/-- `base64.b64decode` with its default leniency: discard bytes outside
the alphabet, then decode; `none` models the `binascii` padding error. -/
def b64decodeBytes (l : List Nat) : Option (List Nat) :=
  b64decodeGroups (l.filter isB64Char)

/-- Python `str.split(sep)` on a byte list, for a one-byte separator. -/
def splitOnByte (sep : Nat) : List Nat → List (List Nat)
  | [] => [[]]
  | b :: rest =>
    let r := splitOnByte sep rest
    if b == sep then [] :: r
    else
      match r with
      | h :: t => (b :: h) :: t
      | [] => [[b]]

/-- JSON string-content escaping as `json.dumps` performs it on the
strings at hand (backslash and quote; the serialized uuid/isoformat/data
strings carry no control characters). -/
def jsonEscape : List Char → List Char
  | [] => []
  | c :: rest =>
    if c = '\\' then '\\' :: '\\' :: jsonEscape rest
    else if c = '"' then '\\' :: '"' :: jsonEscape rest
    else c :: jsonEscape rest

/-- A JSON string literal. -/
def jsonStrLit (s : String) : String := "\"" ++ ⟨jsonEscape s.data⟩ ++ "\""

/-- The `AuthStateToken` dataclass; `expires` is its `isoformat()` text. -/
structure AuthStateToken where
  token : String
  expires : String
  data : Option String := none
  deriving Repr, DecidableEq

/-- `json.dumps(\x7b"token": ..., "expires": ..., "data": ...\x7d)` with
the default ", " / ": " separators. -/
def jsonDumpsState (t : AuthStateToken) : String :=
  "\x7b\"token\": " ++ jsonStrLit t.token ++ ", \"expires\": " ++
    jsonStrLit t.expires ++ ", \"data\": " ++
    (match t.data with
     | some d => jsonStrLit d
     | none => "null") ++ "\x7d"

/-- Consume an expected literal prefix. -/
def parseLit : List Char → List Char → Option (List Char)
  | [], s => some s
  | _ :: _, [] => none
  | c :: cs, x :: xs => if x = c then parseLit cs xs else none

/-- Parse JSON string content up to the closing quote, undoing the
escapes `jsonEscape` produces. -/
def parseJStr : List Char → Option (List Char × List Char)
  | [] => none
  | c :: rest =>
    if c = '"' then some ([], rest)
    else if c = '\\' then
      match rest with
      | [] => none
      | e :: rest2 =>
        if e = '\\' ∨ e = '"' then
          match parseJStr rest2 with
          | some (content, rem) => some (e :: content, rem)
          | none => none
        else none
    else
      match parseJStr rest with
      | some (content, rem) => some (c :: content, rem)
      | none => none

/-- `json.loads` on the object fragment `from_state_str` consumes: the
three keys in serialization order, string values for `token`/`expires`,
string-or-null for `data`. -/
def jsonParseState (s : List Char) : Option (String × String × Option String) :=
  match parseLit ("\x7b\"token\": \"").data s with
  | none => none
  | some s1 =>
    match parseJStr s1 with
    | none => none
    | some (tok, s2) =>
      match parseLit (", \"expires\": \"").data s2 with
      | none => none
      | some s3 =>
        match parseJStr s3 with
        | none => none
        | some (expires, s4) =>
          match parseLit (", \"data\": ").data s4 with
          | none => none
          | some s5 =>
            match s5 with
            | 'n' :: 'u' :: 'l' :: 'l' :: s6 =>
              match s6 with
              | ['\x7d'] => some (⟨tok⟩, ⟨expires⟩, none)
              | _ => none
            | '"' :: s6 =>
              match parseJStr s6 with
              | none => none
              | some (dat, s7) =>
                match s7 with
                | ['\x7d'] => some (⟨tok⟩, ⟨expires⟩, some ⟨dat⟩)
                | _ => none
            | _ => none

/-- `AuthStateToken.to_state_str` (`backend/auth/google.py` lines 27-37):
base64 the JSON payload, HMAC-SHA-256 it **keyed with
`GOOGLE_CLIENT_ID`**, and base64 the `payload:hexdigest` concatenation
again. -/
def to_state_str (client_id : String) (t : AuthStateToken) : String :=
  let serialized := b64encodeBytes (strBytes (jsonDumpsState t))
  let hash := hexBytes (hmacSha256 (strBytes client_id) serialized)
  bytesStr (b64encodeBytes (serialized ++ 58 :: hash))

/-- `AuthStateToken.from_state_str` (lines 39-60): undo the outer base64,
split on ":" (a tuple unpack, so exactly two parts), parse the JSON from
the inner base64, recompute the HMAC keyed with `GOOGLE_CLIENT_ID` and
compare (`hmac.compare_digest`); every failure path lands in the
`except` clause and yields `None`. -/
def from_state_str (client_id : String) (s : String) :
    Option AuthStateToken :=
  match b64decodeBytes (strBytes s) with
  | none => none
  | some decoded =>
    match splitOnByte 58 decoded with
    | [serialized, hash] =>
      match b64decodeBytes serialized with
      | none => none
      | some jsonBytes =>
        match jsonParseState (bytesStr jsonBytes).data with
        | none => none
        | some (tok, expires, dat) =>
          let hmac_incoming :=
            hexBytes (hmacSha256 (strBytes client_id) serialized)
          if hash == hmac_incoming then
            some { token := tok, expires := expires, data := dat }
          else none
    | _ => none

/-- The wire format the claim asserts, written from its words:
`base64( base64(json) ++ ":" ++ hex(hmac_sha256(client_secret,
base64_json)) )` — keyed by the provider client secret. -/
def spec_state_str (client_secret : String) (t : AuthStateToken) : String :=
  let base64_json := b64encodeBytes (strBytes (jsonDumpsState t))
  bytesStr (b64encodeBytes (base64_json ++ 58 ::
    hexBytes (hmacSha256 (strBytes client_secret) base64_json)))

/-- The concrete state token of the C8 counterexample and witness. -/
def stateTok : AuthStateToken :=
  { token := "1b4e28ba-2fa1-11d2-883f-0016d3cca427",
    expires := "2024-05-01T12:00:00.000000" }

set_option maxRecDepth 4000 in
/-- C8 counterexample: with the provider client id and client secret set
to distinct values, the state string the code produces differs from the
claimed wire format keyed by the client secret, and coincides with the
same formula keyed by the client id: the HMAC key is `GOOGLE_CLIENT_ID`,
not the client secret. -/
theorem c8_hmac_keyed_by_client_id_not_secret :
    to_state_str "test-google-client-id" stateTok ≠
      spec_state_str "test-google-client-secret" stateTok ∧
    to_state_str "test-google-client-id" stateTok =
      spec_state_str "test-google-client-id" stateTok := by
  exact ⟨by decide, rfl⟩

theorem b64EncChar_spec : ∀ i < 64, b64DecVal (b64EncChar i) = some i ∧
    isB64Char (b64EncChar i) = true ∧ b64EncChar i < 128 ∧
    ¬ b64EncChar i = 58 ∧ ¬ b64EncChar i = 61 := by decide

theorem b64encode_mem : ∀ bs : List Nat, (∀ b ∈ bs, b < 256) →
    ∀ x ∈ b64encodeBytes bs,
      isB64Char x = true ∧ x < 128 ∧ ¬ x = 58 := by
  have pad : isB64Char 61 = true ∧ (61 : Nat) < 128 ∧ ¬ (61 : Nat) = 58 := by
    decide
  intro bs
  induction bs using b64encodeBytes.induct with
  | case1 => intro _ x hx; exact absurd hx (List.not_mem_nil x)
  | case2 a =>
    intro hb x hx
    have ha : a < 256 := hb a (by simp)
    simp only [b64encodeBytes, List.mem_cons, List.not_mem_nil,
      or_false] at hx
    rcases hx with rfl | rfl | rfl | rfl
    · exact ⟨(b64EncChar_spec _ (by omega)).2.1,
        (b64EncChar_spec _ (by omega)).2.2.1,
        (b64EncChar_spec _ (by omega)).2.2.2.1⟩
    · exact ⟨(b64EncChar_spec _ (by omega)).2.1,
        (b64EncChar_spec _ (by omega)).2.2.1,
        (b64EncChar_spec _ (by omega)).2.2.2.1⟩
    · exact pad
    · exact pad
  | case3 a b =>
    intro hb x hx
    have ha : a < 256 := hb a (by simp)
    have hbb : b < 256 := hb b (by simp)
    simp only [b64encodeBytes, List.mem_cons, List.not_mem_nil,
      or_false] at hx
    rcases hx with rfl | rfl | rfl | rfl
    · exact ⟨(b64EncChar_spec _ (by omega)).2.1,
        (b64EncChar_spec _ (by omega)).2.2.1,
        (b64EncChar_spec _ (by omega)).2.2.2.1⟩
    · exact ⟨(b64EncChar_spec _ (by omega)).2.1,
        (b64EncChar_spec _ (by omega)).2.2.1,
        (b64EncChar_spec _ (by omega)).2.2.2.1⟩
    · exact ⟨(b64EncChar_spec _ (by omega)).2.1,
        (b64EncChar_spec _ (by omega)).2.2.1,
        (b64EncChar_spec _ (by omega)).2.2.2.1⟩
    · exact pad
  | case4 a b c rest ih =>
    intro hb x hx
    have ha : a < 256 := hb a (by simp)
    have hbb : b < 256 := hb b (by simp)
    have hc : c < 256 := hb c (by simp)
    simp only [b64encodeBytes, List.mem_cons] at hx
    rcases hx with rfl | rfl | rfl | rfl | hx
    · exact ⟨(b64EncChar_spec _ (by omega)).2.1,
        (b64EncChar_spec _ (by omega)).2.2.1,
        (b64EncChar_spec _ (by omega)).2.2.2.1⟩
    · exact ⟨(b64EncChar_spec _ (by omega)).2.1,
        (b64EncChar_spec _ (by omega)).2.2.1,
        (b64EncChar_spec _ (by omega)).2.2.2.1⟩
    · exact ⟨(b64EncChar_spec _ (by omega)).2.1,
        (b64EncChar_spec _ (by omega)).2.2.1,
        (b64EncChar_spec _ (by omega)).2.2.2.1⟩
    · exact ⟨(b64EncChar_spec _ (by omega)).2.1,
        (b64EncChar_spec _ (by omega)).2.2.1,
        (b64EncChar_spec _ (by omega)).2.2.2.1⟩
    · exact ih (fun y hy => hb y (by simp [hy])) x hx

theorem b64decodeGroups_encode : ∀ bs : List Nat, (∀ b ∈ bs, b < 256) →
    b64decodeGroups (b64encodeBytes bs) = some bs := by
  intro bs
  induction bs using b64encodeBytes.induct with
  | case1 => intro _; rfl
  | case2 a =>
    intro hb
    have ha : a < 256 := hb a (by simp)
    simp only [b64encodeBytes, b64decodeGroups,
      (b64EncChar_spec (a / 4) (by omega)).1,
      (b64EncChar_spec ((a % 4) * 16) (by omega)).1]
    simp only [if_true, and_self, Option.some.injEq, List.cons.injEq,
      and_true]
    omega
  | case3 a b =>
    intro hb
    have ha : a < 256 := hb a (by simp)
    have hbb : b < 256 := hb b (by simp)
    simp only [b64encodeBytes, b64decodeGroups,
      (b64EncChar_spec (a / 4) (by omega)).1,
      (b64EncChar_spec ((a % 4) * 16 + b / 16) (by omega)).1,
      (b64EncChar_spec ((b % 16) * 4) (by omega)).1]
    rw [if_neg (b64EncChar_spec ((b % 16) * 4) (by omega)).2.2.2.2]
    simp only [if_true, and_self, Option.some.injEq, List.cons.injEq,
      and_true]
    exact ⟨by omega, by omega⟩
  | case4 a b c rest ih =>
    intro hb
    have ha : a < 256 := hb a (by simp)
    have hbb : b < 256 := hb b (by simp)
    have hc : c < 256 := hb c (by simp)
    have hrest := ih (fun y hy => hb y (by simp [hy]))
    simp only [b64encodeBytes, b64decodeGroups,
      (b64EncChar_spec (a / 4) (by omega)).1,
      (b64EncChar_spec ((a % 4) * 16 + b / 16) (by omega)).1,
      (b64EncChar_spec ((b % 16) * 4 + c / 64) (by omega)).1,
      (b64EncChar_spec (c % 64) (by omega)).1]
    rw [if_neg (b64EncChar_spec ((b % 16) * 4 + c / 64)
        (by omega)).2.2.2.2,
      if_neg (b64EncChar_spec (c % 64) (by omega)).2.2.2.2, hrest]
    simp only [Option.some.injEq, List.cons.injEq]
    refine ⟨by omega, by omega, by omega, trivial⟩

theorem b64decodeBytes_encode (bs : List Nat) (hb : ∀ b ∈ bs, b < 256) :
    b64decodeBytes (b64encodeBytes bs) = some bs := by
  rw [b64decodeBytes, List.filter_eq_self.mpr
    (fun a ha => (b64encode_mem bs hb a ha).1)]
  exact b64decodeGroups_encode bs hb

theorem hexChar_spec (n : Nat) : ¬ hexChar n = 58 ∧ (n < 16 → hexChar n < 128) := by
  constructor
  · unfold hexChar; split_ifs <;> omega
  · intro h; unfold hexChar; split_ifs <;> omega

theorem hexBytes_mem : ∀ bs : List Nat, (∀ b ∈ bs, b < 256) →
    ∀ x ∈ hexBytes bs, ¬ x = 58 ∧ x < 128 := by
  intro bs
  induction bs with
  | nil => intro _ x hx; exact absurd hx (List.not_mem_nil x)
  | cons b rest ih =>
    intro hb x hx
    have hbb : b < 256 := hb b (by simp)
    simp only [hexBytes, List.mem_cons] at hx
    rcases hx with rfl | rfl | hx
    · exact ⟨(hexChar_spec _).1, (hexChar_spec _).2 (by omega)⟩
    · exact ⟨(hexChar_spec _).1, (hexChar_spec _).2 (by omega)⟩
    · exact ih (fun y hy => hb y (by simp [hy])) x hx

theorem beBytes_lt256 : ∀ k n : Nat, ∀ x ∈ beBytes k n, x < 256 := by
  intro k
  induction k with
  | zero => intro n x hx; exact absurd hx (List.not_mem_nil x)
  | succ j ih =>
    intro n x hx
    simp only [beBytes, List.mem_append, List.mem_singleton] at hx
    rcases hx with hx | rfl
    · exact ih _ x hx
    · omega

theorem sha256_lt256 (msg : List Nat) : ∀ x ∈ sha256 msg, x < 256 := by
  intro x hx
  rw [sha256] at hx
  simp only [List.mem_flatMap] at hx
  obtain ⟨w, -, hw⟩ := hx
  exact beBytes_lt256 4 w x hw

theorem hmacSha256_lt256 (key msg : List Nat) :
    ∀ x ∈ hmacSha256 key msg, x < 256 := by
  intro x hx
  exact sha256_lt256 _ x hx

theorem splitOnByte_no_sep (sep : Nat) : ∀ c : List Nat,
    (∀ b ∈ c, ¬ b = sep) → splitOnByte sep c = [c] := by
  intro c
  induction c with
  | nil => intro _; rfl
  | cons b rest ih =>
    intro h
    have hb : (b == sep) = false := by
      simp [h b (by simp)]
    simp only [splitOnByte, ih (fun y hy => h y (by simp [hy])), hb,
      Bool.false_eq_true, if_false]

theorem splitOnByte_append (sep : Nat) : ∀ a : List Nat, ∀ c : List Nat,
    (∀ b ∈ a, ¬ b = sep) →
    splitOnByte sep (a ++ sep :: c) = a :: splitOnByte sep c := by
  intro a c
  induction a with
  | nil =>
    intro _
    simp only [List.nil_append, splitOnByte, beq_self_eq_true, if_true]
  | cons b a2 ih =>
    intro h
    have hb : (b == sep) = false := by
      simp [h b (by simp)]
    have ih2 := ih (fun y hy => h y (by simp [hy]))
    simp only [List.cons_append, splitOnByte, hb, Bool.false_eq_true,
      if_false, List.append_eq]
    rw [ih2]

theorem bytesStr_strBytes (s : String) : bytesStr (strBytes s) = s := by
  rw [bytesStr, strBytes, List.map_map]
  have h : s.data.map (Char.ofNat ∘ Char.toNat) = s.data :=
    calc s.data.map (Char.ofNat ∘ Char.toNat)
        = s.data.map id :=
          List.map_congr_left (fun c _ => Char.ofNat_toNat c)
      _ = s.data := List.map_id s.data
  rw [h]

theorem strBytes_bytesStr (l : List Nat) (h : ∀ x ∈ l, x < 128) :
    strBytes (bytesStr l) = l := by
  rw [strBytes, bytesStr]
  rw [show (String.mk (l.map Char.ofNat)).data = l.map Char.ofNat from rfl]
  have h2 : ∀ x ∈ l, (Char.toNat ∘ Char.ofNat) x = id x := by
    intro x hx
    have hv : x.isValidChar := Or.inl (by have := h x hx; omega)
    show (Char.ofNat x).toNat = x
    unfold Char.ofNat
    rw [dif_pos hv]
    rfl
  calc (l.map Char.ofNat).map Char.toNat
      = l.map (Char.toNat ∘ Char.ofNat) := by rw [List.map_map]
    _ = l.map id := List.map_congr_left h2
    _ = l := List.map_id l

theorem jsonEscape_mem : ∀ l : List Char, ∀ c ∈ jsonEscape l,
    c ∈ l ∨ c = '\\' ∨ c = '"' := by
  intro l
  induction l with
  | nil => intro c hc; exact absurd hc (List.not_mem_nil c)
  | cons x rest ih =>
    intro c hc
    rw [jsonEscape] at hc
    split_ifs at hc with h1 h2
    · simp only [List.mem_cons] at hc
      rcases hc with rfl | rfl | hc
      · exact Or.inr (Or.inl rfl)
      · exact Or.inr (Or.inl rfl)
      · rcases ih c hc with h | h
        · exact Or.inl (List.mem_cons_of_mem x h)
        · exact Or.inr h
    · simp only [List.mem_cons] at hc
      rcases hc with rfl | rfl | hc
      · exact Or.inr (Or.inl rfl)
      · exact Or.inr (Or.inr rfl)
      · rcases ih c hc with h | h
        · exact Or.inl (List.mem_cons_of_mem x h)
        · exact Or.inr h
    · simp only [List.mem_cons] at hc
      rcases hc with rfl | hc
      · exact Or.inl (List.mem_cons_self _ _)
      · rcases ih c hc with h | h
        · exact Or.inl (List.mem_cons_of_mem _ h)
        · exact Or.inr h

theorem jsonDumpsState_lt256 (t : AuthStateToken)
    (h1 : ∀ c ∈ t.token.data, c.toNat < 128)
    (h2 : ∀ c ∈ t.expires.data, c.toNat < 128)
    (h3 : ∀ d, t.data = some d → ∀ c ∈ d.data, c.toNat < 128) :
    ∀ x ∈ strBytes (jsonDumpsState t), x < 256 := by
  have hesc : ∀ (s : String), (∀ c ∈ s.data, c.toNat < 128) →
      ∀ c ∈ (jsonStrLit s).data, c.toNat < 256 := by
    intro s hs c hc
    rw [jsonStrLit] at hc
    simp only [String.data_append, List.mem_append] at hc
    rcases hc with (hc | hc) | hc
    · revert c hc
      decide
    · rcases jsonEscape_mem s.data c hc with h | rfl | rfl
      · have := hs c h; omega
      · decide
      · decide
    · revert c hc
      decide
  intro x hx
  rw [strBytes] at hx
  simp only [List.mem_map] at hx
  obtain ⟨c, hc, rfl⟩ := hx
  cases hd : t.data with
  | some d =>
    simp only [jsonDumpsState, hd, String.data_append,
      List.mem_append] at hc
    rcases hc with (((((hc | hc) | hc) | hc) | hc) | hc) | hc
    · revert c hc
      decide
    · exact hesc t.token h1 c hc
    · revert c hc
      decide
    · exact hesc t.expires h2 c hc
    · revert c hc
      decide
    · exact hesc d (h3 d hd) c hc
    · revert c hc
      decide
  | none =>
    simp only [jsonDumpsState, hd, String.data_append,
      List.mem_append] at hc
    rcases hc with (((((hc | hc) | hc) | hc) | hc) | hc) | hc
    · revert c hc
      decide
    · exact hesc t.token h1 c hc
    · revert c hc
      decide
    · exact hesc t.expires h2 c hc
    · revert c hc
      decide
    · revert c hc
      decide
    · revert c hc
      decide

theorem parseLit_append : ∀ lit s : List Char,
    parseLit lit (lit ++ s) = some s := by
  intro lit
  induction lit with
  | nil => intro s; rfl
  | cons c cs ih =>
    intro s
    simp only [List.cons_append, parseLit, if_pos rfl]
    exact ih s

theorem parseJStr_escape : ∀ content rest : List Char,
    parseJStr (jsonEscape content ++ '"' :: rest) =
      some (content, rest) := by
  intro content
  induction content with
  | nil =>
    intro rest
    rw [jsonEscape, List.nil_append, parseJStr.eq_def]
    simp
  | cons c cs ih =>
    intro rest
    by_cases h1 : c = '\\'
    · subst h1
      simp [jsonEscape, parseJStr, ih]
    · by_cases h2 : c = '"'
      · subst h2
        simp [jsonEscape, parseJStr, ih]
      · rw [jsonEscape, if_neg h1, if_neg h2, List.cons_append,
          parseJStr.eq_def]
        simp only [h1, h2, if_false, ih]

theorem jsonParseState_dumps (t : AuthStateToken) :
    jsonParseState (jsonDumpsState t).data =
      some (t.token, t.expires, t.data) := by
  cases hd : t.data with
  | none =>
    have h : (jsonDumpsState t).data =
        ("\x7b\"token\": \"").data ++ (jsonEscape t.token.data ++ '"' ::
          ((", \"expires\": \"").data ++ (jsonEscape t.expires.data ++
            '"' :: ((", \"data\": ").data ++
              ('n' :: 'u' :: 'l' :: 'l' :: ['\x7d']))))) := by
      simp only [jsonDumpsState, hd, jsonStrLit, String.data_append,
        List.append_assoc, List.cons_append, List.nil_append]
    rw [h]
    simp only [jsonParseState, parseLit_append, parseJStr_escape]
  | some d =>
    have h : (jsonDumpsState t).data =
        ("\x7b\"token\": \"").data ++ (jsonEscape t.token.data ++ '"' ::
          ((", \"expires\": \"").data ++ (jsonEscape t.expires.data ++
            '"' :: ((", \"data\": ").data ++
              ('"' :: (jsonEscape d.data ++ '"' :: ['\x7d'])))))) := by
      simp only [jsonDumpsState, hd, jsonStrLit, String.data_append,
        List.append_assoc, List.cons_append, List.nil_append]
    rw [h]
    simp only [jsonParseState, parseLit_append, parseJStr_escape]

set_option maxRecDepth 4000 in
/-- C8 (amended: the HMAC key is the provider client id, not the client
secret): `to_state_str` serializes exactly as
`base64( base64(json) ++ ":" ++ hex(hmac_sha256(GOOGLE_CLIENT_ID,
base64_json)) )`; `from_state_str` reverses these steps — for any state
token with ASCII fields the round trip returns the token — recomputing
the HMAC and comparing with `hmac.compare_digest`; and a parse or
verification failure yields `none` rather than an exception: a state
string HMAC-tagged under a different key and a non-base64 string are both
rejected. -/
theorem c8_state_token_wire_format (client_id : String)
    (t : AuthStateToken)
    (h1 : ∀ c ∈ t.token.data, c.toNat < 128)
    (h2 : ∀ c ∈ t.expires.data, c.toNat < 128)
    (h3 : ∀ d, t.data = some d → ∀ c ∈ d.data, c.toNat < 128) :
    to_state_str client_id t = spec_state_str client_id t ∧
    from_state_str client_id (to_state_str client_id t) = some t ∧
    from_state_str "test-google-client-id"
      (spec_state_str "test-google-client-secret" stateTok) = none ∧
    from_state_str "test-google-client-id" "%%%not-base64%%%" = none := by
  refine ⟨rfl, ?_, by decide, by decide⟩
  have hjson256 : ∀ x ∈ strBytes (jsonDumpsState t), x < 256 :=
    jsonDumpsState_lt256 t h1 h2 h3
  have hser256 : ∀ b ∈ b64encodeBytes (strBytes (jsonDumpsState t)),
      b < 256 := by
    intro b hb
    have := (b64encode_mem _ hjson256 b hb).2.1
    omega
  have hall : ∀ b ∈ b64encodeBytes (strBytes (jsonDumpsState t)) ++ 58 ::
      hexBytes (hmacSha256 (strBytes client_id)
        (b64encodeBytes (strBytes (jsonDumpsState t)))), b < 256 := by
    intro b hb
    simp only [List.mem_append, List.mem_cons] at hb
    rcases hb with hb | rfl | hb
    · exact hser256 b hb
    · omega
    · have := (hexBytes_mem _ (hmacSha256_lt256 _ _) b hb).2
      omega
  have hsb : strBytes (bytesStr (b64encodeBytes
      (b64encodeBytes (strBytes (jsonDumpsState t)) ++ 58 ::
        hexBytes (hmacSha256 (strBytes client_id)
          (b64encodeBytes (strBytes (jsonDumpsState t))))))) =
      b64encodeBytes (b64encodeBytes (strBytes (jsonDumpsState t)) ++ 58 ::
        hexBytes (hmacSha256 (strBytes client_id)
          (b64encodeBytes (strBytes (jsonDumpsState t))))) :=
    strBytes_bytesStr _ (fun b hb => (b64encode_mem _ hall b hb).2.1)
  have hdec : b64decodeBytes (b64encodeBytes
      (b64encodeBytes (strBytes (jsonDumpsState t)) ++ 58 ::
        hexBytes (hmacSha256 (strBytes client_id)
          (b64encodeBytes (strBytes (jsonDumpsState t)))))) =
      some (b64encodeBytes (strBytes (jsonDumpsState t)) ++ 58 ::
        hexBytes (hmacSha256 (strBytes client_id)
          (b64encodeBytes (strBytes (jsonDumpsState t))))) :=
    b64decodeBytes_encode _ hall
  have hsplit : splitOnByte 58
      (b64encodeBytes (strBytes (jsonDumpsState t)) ++ 58 ::
        hexBytes (hmacSha256 (strBytes client_id)
          (b64encodeBytes (strBytes (jsonDumpsState t))))) =
      [b64encodeBytes (strBytes (jsonDumpsState t)),
       hexBytes (hmacSha256 (strBytes client_id)
         (b64encodeBytes (strBytes (jsonDumpsState t))))] := by
    rw [splitOnByte_append 58 _ _
      (fun b hb => (b64encode_mem _ hjson256 b hb).2.2),
      splitOnByte_no_sep 58 _
      (fun b hb => (hexBytes_mem _ (hmacSha256_lt256 _ _) b hb).1)]
  have hdec2 : b64decodeBytes (b64encodeBytes (strBytes (jsonDumpsState t)))
      = some (strBytes (jsonDumpsState t)) :=
    b64decodeBytes_encode _ hjson256
  have hjson : jsonParseState (bytesStr (strBytes (jsonDumpsState t))).data
      = some (t.token, t.expires, t.data) := by
    rw [bytesStr_strBytes]
    exact jsonParseState_dumps t
  show from_state_str client_id (bytesStr (b64encodeBytes
    (b64encodeBytes (strBytes (jsonDumpsState t)) ++ 58 ::
      hexBytes (hmacSha256 (strBytes client_id)
        (b64encodeBytes (strBytes (jsonDumpsState t))))))) = some t
  simp only [from_state_str, hsb, hdec, hsplit, hdec2, hjson,
    beq_self_eq_true, if_true]

/-- Witness for C8: the concrete state token round-trips through
`to_state_str` / `from_state_str`, and its wire format matches the
client-id-keyed formula. -/
theorem c8_state_token_wire_format_witness :
    to_state_str "test-google-client-id" stateTok =
      spec_state_str "test-google-client-id" stateTok ∧
    from_state_str "test-google-client-id"
      (to_state_str "test-google-client-id" stateTok) = some stateTok := by
  have h := c8_state_token_wire_format "test-google-client-id" stateTok
    (by decide) (by decide) (fun d hd => by simp [stateTok] at hd)
  exact ⟨h.1, h.2.1⟩

end NewDepths
